import Mathlib

/-!
Verification development for the plugin-loader repository.

Shallow embedding of the core modules:
- `src/targeting.js`  (rule matching and targeting evaluation)
- `src/experiments.js` (experiment registry, bucketing and application)
- `src/timer.js`       (performance record construction)
- `src/index.js`       (the PluginLoader orchestrator: load pipeline,
                        consent queue, url overrides, script-event handlers)

Modelling conventions:
- JS strings are Lean `String`; case normalisation (`String(x).toLowerCase()`)
  is modelled over `List Char` (ASCII case folding), so that all definitions
  reduce in the kernel.
- User-supplied predicates (`special`) are modelled as data: they either
  return a boolean or throw; a throw is caught at the call site exactly as in
  the source.
- Experiment `apply` callbacks are descriptor transformers that may throw
  (`ApplyResult.err` carries the possibly partially-mutated descriptor).
- Side effects (hook invocation, pub/sub publication, promise resolution,
  script-tag attachment) are recorded in an explicit `Effect` trace; hook
  functions themselves are represented by their trace labels.
- Timestamps (`timer()`) are supplied externally as an `Int` parameter `now`.
- All functions are total; JS exceptions that the source catches are modelled
  by the data above, and the source has no uncaught throw on these paths.
-/

/-! ## String helpers (JS `toLowerCase`, `startsWith`, `includes`) -/

/-- ASCII lower-casing of one character (models JS `toLowerCase` on the
ASCII inputs the repository uses). -/
def lowerChar (c : Char) : Char :=
  if 'A' ≤ c ∧ c ≤ 'Z' then Char.ofNat (c.toNat + 32) else c

/-- `String(x).toLowerCase()` as a character list. -/
def lowerChars (s : String) : List Char := s.data.map lowerChar

/-- List-prefix test (models JS `String.prototype.startsWith`). -/
def charsPrefix : List Char → List Char → Bool
  | [], _ => true
  | _ :: _, [] => false
  | a :: as, b :: bs => a == b && charsPrefix as bs

/-- Substring containment (models JS `String.prototype.includes`). -/
def charsSub (needle : List Char) : List Char → Bool
  | [] => charsPrefix needle []
  | c :: rest => charsPrefix needle (c :: rest) || charsSub needle rest

/-! ## targeting.js -/

/-- Outcome of calling a user-supplied zero-argument `special` predicate:
it returns a boolean or throws. -/
inductive SpecialOutcome where
  | ret (b : Bool)
  | throws
deriving DecidableEq, Repr

/-- One side (`include` or `exclude`) of a targeting configuration:
an optional `special` predicate (`none` models "not a function") and
per-dimension rule lists (a JS object mapping dimension name to an array). -/
structure TargetingSide where
  special : Option SpecialOutcome
  rules : List (String × List String)
deriving DecidableEq, Repr

/-- The empty targeting object `{}`. -/
def emptySide : TargetingSide := ⟨none, []⟩

/-- Rule-list lookup for a dimension (JS property access `side[dimension]`,
`none` models `undefined`). -/
def TargetingSide.rulesFor (t : TargetingSide) (dim : String) : Option (List String) :=
  (t.rules.find? (fun p => p.1 == dim)).map (·.2)

/-- `matchesRule(value, rules, matchType)` from targeting.js.
`rules = none` models a missing (`undefined`/`null`) rule array. -/
def matchesRule (value : String) (rules : Option (List String)) (matchType : String) : Bool :=
  match rules with
  | none => true
  | some rs =>
    if rs.isEmpty then true
    else if rs.head? == some "all" || rs.contains "all" then true
    else
      let normalizedValue := lowerChars value
      if matchType == "startsWith" then
        rs.any (fun rule => charsPrefix (lowerChars rule) normalizedValue)
      else if matchType == "includes" then
        rs.any (fun rule => charsSub (lowerChars rule) normalizedValue)
      else
        rs.any (fun rule => normalizedValue == lowerChars rule)

/-- `isExcluded(value, rules, matchType)` from targeting.js.
Note: unlike `matchesRule`, the source has no wildcard branch here. -/
def isExcluded (value : String) (rules : Option (List String)) (matchType : String) : Bool :=
  match rules with
  | none => false
  | some rs =>
    if rs.isEmpty then false
    else
      let normalizedValue := lowerChars value
      if matchType == "startsWith" then
        rs.any (fun rule => charsPrefix (lowerChars rule) normalizedValue)
      else if matchType == "includes" then
        rs.any (fun rule => charsSub (lowerChars rule) normalizedValue)
      else
        rs.any (fun rule => normalizedValue == lowerChars rule)

/-- Result record of `evaluateTargeting`. -/
structure TargetResult where
  matched : Bool
  reason : String
deriving DecidableEq, Repr

/-- Match type for a dimension: `dimensionConfig[dimension] || {}` then
`config.matchType || 'exact'` (a missing or falsy entry defaults to exact). -/
def matchTypeFor (dimensionConfig : List (String × String)) (dim : String) : String :=
  match (dimensionConfig.find? (fun p => p.1 == dim)).map (·.2) with
  | some s => if s == "" then "exact" else s
  | none => "exact"

/-- Step 3 of `evaluateTargeting`: the per-dimension loop over
`Object.keys(context)`, in context key order. -/
def evalDimensions (inc exc : TargetingSide) (dimensionConfig : List (String × String)) :
    List (String × String) → TargetResult
  | [] => ⟨true, "All targeting rules passed"⟩
  | (dimension, currentValue) :: rest =>
    let matchType := matchTypeFor dimensionConfig dimension
    let excluded :=
      match exc.rulesFor dimension with
      | some rs => rs.length > 0 && isExcluded currentValue (some rs) matchType
      | none => false
    if excluded then
      ⟨false, s!"Excluded by {dimension}: {currentValue}"⟩
    else
      let notIncluded :=
        match inc.rulesFor dimension with
        | some rs => rs.length > 0 && !(matchesRule currentValue (some rs) matchType)
        | none => false
      if notIncluded then
        ⟨false, s!"Not included by {dimension}: {currentValue}"⟩
      else
        evalDimensions inc exc dimensionConfig rest

/-- `evaluateTargeting(include, exclude, context, dimensionConfig)` from
targeting.js.  A `special` predicate fires only when it is present, does not
throw and returns `true`; a thrown exception is caught and evaluation falls
through, exactly as the source's try/catch. -/
def evaluateTargeting (inc exc : TargetingSide) (context : List (String × String))
    (dimensionConfig : List (String × String)) : TargetResult :=
  if exc.special == some (.ret true) then
    ⟨false, "Excluded by special function"⟩
  else if inc.special == some (.ret true) then
    ⟨true, "Included by special function"⟩
  else
    evalDimensions inc exc dimensionConfig context

/-- `matchesDomain(domains, currentDomain)` from targeting.js; `host` is the
resolved current domain. Note the membership test is case-sensitive. -/
def matchesDomain (domains : Option (List String)) (host : String) : Bool :=
  match domains with
  | none => true
  | some ds =>
    if ds.isEmpty then true
    else if ds.contains "all" then true
    else ds.contains host

/-- `normalizeTargetingConfig` from targeting.js: defaults each side's
`special` to the constant-false function, keeping everything else. -/
def normalizeTargetingConfig (inc exc : TargetingSide) : TargetingSide × TargetingSide :=
  ({ inc with special := some (inc.special.getD (.ret false)) },
   { exc with special := some (exc.special.getD (.ret false)) })

/-! ## timer.js -/

/-- Performance record created by `createPerformanceTracker`; field names
follow the source (`timeout` is the timeout timestamp). -/
structure PerformanceRecord where
  status : String
  init : Int
  requested : Int
  received : Int
  preload : Int
  error : Int
  timeout : Int
  latency : Int
deriving DecidableEq, Repr

/-- `createPerformanceTracker()` from timer.js; `now` is the `timer()` value. -/
def createPerformanceTracker (now : Int) : PerformanceRecord :=
  { status := "init", init := now, requested := 0, received := 0,
    preload := 0, error := -1, timeout := -1, latency := 0 }

/-- `calculateLatency(perf)` from timer.js: `timer() - perf.init`. -/
def calculateLatency (perf : PerformanceRecord) (now : Int) : Int :=
  now - perf.init

/-! ## Plugin descriptor (index.js `normalizePluginConfig`) -/

/-- Normalized plugin descriptor. Field names follow the source; `include`
and `exclude` are spelt with a trailing apostrophe because `include` is a
Lean keyword, and `type` likewise. The lifecycle hook functions
(`preloadFn`, `onloadFn`, `onerrorFn`, `timeoutFn`, `ignoreFn`) are not
stored as data: their invocations are recorded in the effect trace. The
`tag`/`timeoutProc` runtime handles are owned by the browser runtime and are
modelled by the separately-invokable event handlers below. -/
structure Plugin where
  name : String
  id : String
  url : Option String
  type' : String
  active : Bool
  async : Bool
  location : String
  timeout : Int
  domains : List String
  consentState : List String
  include' : TargetingSide
  exclude' : TargetingSide
  attributes : List (String × String)
  performance : PerformanceRecord
  eventTitle : String
  status : String
deriving DecidableEq, Repr

/-- Raw plugin configuration as submitted by the caller; `none` models an
absent (`undefined`) field. `consent` is the alias the source accepts for
`consentState`. -/
structure RawConfig where
  name : String
  id : Option String
  url : Option String
  type' : Option String
  active : Option Bool
  async : Option Bool
  location : Option String
  timeout : Option Int
  domains : Option (List String)
  consentState : Option (List String)
  consent : Option (List String)
  include' : Option TargetingSide
  exclude' : Option TargetingSide
  attributes : Option (List (String × String))
  status : Option String
deriving DecidableEq, Repr

/-! ## experiments.js -/

/-- Result of invoking an experiment's `apply(pluginConfig)` callback: it
either returns normally or throws; either way the descriptor it was mutating
in place is carried along (a throw may leave it partially mutated). -/
inductive ApplyResult where
  | ok (p : Plugin)
  | err (p : Plugin)

/-- The descriptor resulting from an `apply` invocation (whether or not it
threw: in-place mutations made before a throw persist). -/
def ApplyResult.plugin : ApplyResult → Plugin
  | .ok p => p
  | .err p => p

/-- `true` when the callback returned without throwing. -/
def ApplyResult.isOk : ApplyResult → Bool
  | .ok _ => true
  | .err _ => false

/-- A registered experiment (the shape stored by `register`, which defaults
every optional field; in particular `include`/`exclude` are always objects
here). `plugin = none` models `plugin: null` (a global experiment). -/
structure Experiment where
  id : String
  active : Bool
  testRange : Int × Int
  plugin : Option String
  include' : TargetingSide
  exclude' : TargetingSide
  applyFn : Plugin → ApplyResult

/-- Raw experiment configuration passed to `register`. `id = ""` models a
missing/falsy id. -/
structure RawExperiment where
  id : String
  active : Option Bool
  testRange : Option (Int × Int)
  plugin : Option String
  include' : Option TargetingSide
  exclude' : Option TargetingSide
  applyFn : Option (Plugin → ApplyResult)

/-- ExperimentManager state.  `getContext` is a constructor-supplied thunk;
its value at a given call is passed explicitly as a `ctx` argument to the
operations below.  The registry models a JS object keyed by id:
insertion-ordered, at most one entry per id. -/
structure ExperimentManager where
  active : Bool
  testgroup : Int
  dimensionConfig : List (String × String)
  registry : List Experiment
  applied : List String
  eligible : List String

/-- JS object insertion: replace in place if the id is present, else append. -/
def insertExperiment (registry : List Experiment) (e : Experiment) : List Experiment :=
  if registry.any (fun x => x.id == e.id) then
    registry.map (fun x => if x.id == e.id then e else x)
  else
    registry ++ [e]

/-- `ExperimentManager.register(experiment)`: returns `false` (and leaves the
registry unchanged) when the id is missing, else stores the normalized
experiment and returns `true`. -/
def ExperimentManager.register (m : ExperimentManager) (e : RawExperiment) :
    ExperimentManager × Bool :=
  if e.id == "" then (m, false)
  else
    let exp : Experiment :=
      { id := e.id
        active := e.active != some false
        testRange := e.testRange.getD (0, 99)
        plugin := e.plugin
        include' := e.include'.getD emptySide
        exclude' := e.exclude'.getD emptySide
        applyFn := e.applyFn.getD .ok }
    ({ m with registry := insertExperiment m.registry exp }, true)

/-- `ExperimentManager.unregister(id)`: `delete this.registry[id]`. -/
def ExperimentManager.unregister (m : ExperimentManager) (id : String) : ExperimentManager :=
  { m with registry := m.registry.eraseP (fun e => e.id == id) }

/-- `ExperimentManager.isInExperiment(id)` from experiments.js. -/
def ExperimentManager.isInExperiment (m : ExperimentManager) (id : String) : Bool :=
  if !m.active then false
  else
    match m.registry.find? (fun e => e.id == id) with
    | none => false
    | some exp =>
      if !exp.active then false
      else decide (exp.testRange.1 ≤ m.testgroup) && decide (m.testgroup ≤ exp.testRange.2)

/-- `ExperimentManager.targetingMatches(exp)`; `ctx` is the value of
`this.getContext()` at this call.  The source's early return for
`!exp.include && !exp.exclude` is unreachable for registry entries because
`register` defaults both to `{}` (truthy), so only the evaluation path is
modelled. -/
def ExperimentManager.targetingMatches (m : ExperimentManager) (ctx : List (String × String))
    (exp : Experiment) : Bool :=
  let t := normalizeTargetingConfig exp.include' exp.exclude'
  (evaluateTargeting t.1 t.2 ctx m.dimensionConfig).matched

/-- The plugin/global match test in `apply`:
`pluginName ? exp.plugin === pluginName : !exp.plugin`. -/
def experimentMatchesName (pluginName : Option String) (exp : Experiment) : Bool :=
  match pluginName with
  | some n => exp.plugin == some n
  | none => exp.plugin == none

/-- One iteration of the `apply` loop body, threading the descriptor and
the `applied`/`eligible` accumulators. -/
def applyOne (m : ExperimentManager) (pluginName : Option String)
    (ctx : List (String × String)) (acc : Plugin × List String × List String)
    (exp : Experiment) : Plugin × List String × List String :=
  let (p, ap, el) := acc
  if exp.active && experimentMatchesName pluginName exp then
    if m.targetingMatches ctx exp then
      if m.isInExperiment exp.id then
        match exp.applyFn p with
        | .ok p' => (p', ap ++ [exp.id], el)
        | .err p' => (p', ap, el)
      else (p, ap, el ++ [exp.id])
    else (p, ap, el)
  else (p, ap, el)

/-- `ExperimentManager.apply(pluginName, pluginConfig)` from experiments.js;
returns the updated manager (accumulated `applied`/`eligible`) and the
possibly-mutated descriptor. -/
def ExperimentManager.apply (m : ExperimentManager) (pluginName : Option String)
    (pluginConfig : Plugin) (ctx : List (String × String)) :
    ExperimentManager × Plugin :=
  if !m.active then (m, pluginConfig)
  else
    let r := m.registry.foldl (applyOne m pluginName ctx) (pluginConfig, m.applied, m.eligible)
    ({ m with applied := r.2.1, eligible := r.2.2 }, r.1)

/-- `ExperimentManager.getStatus()`. -/
def ExperimentManager.getStatus (m : ExperimentManager) : Int × List String × List String :=
  (m.testgroup, m.applied, m.eligible)

/-- `ExperimentManager.getTargetingIds()`. -/
def ExperimentManager.getTargetingIds (m : ExperimentManager) : List String :=
  m.applied.map (fun id => s!"{id}_a") ++ m.eligible.map (fun id => s!"{id}_e")

/-! ## index.js — PluginLoader orchestrator -/

/-- Observable side effects of the orchestrator, recorded in order:
`publish topic extra` is `PubSub.publish` (with the optional `reason` datum
of `ignore` events), `hook name which` is an invocation of the named plugin's
lifecycle hook, `appendScript` is the script-tag attachment by the Script
Executor, `clearAlarm` is `clearTimeout`, and `resolveP` is the resolution of
the pending load's promise. -/
inductive Effect where
  | publish (topic : String) (extra : Option String)
  | hook (name : String) (which : String)
  | appendScript (name : String)
  | clearAlarm (name : String)
  | resolveP (status : String) (name : String) (reason : Option String)
      (error : Option String) (performance : PerformanceRecord)
deriving DecidableEq, Repr

/-- How a `load` call's promise stands when the synchronous part returns:
already resolved, still pending on the script/timeout race, or suspended in
the consent queue. -/
inductive LoadOutcome where
  | resolved (status : String) (name : String) (reason : Option String)
      (error : Option String) (performance : PerformanceRecord)
  | pending
  | queued
deriving DecidableEq, Repr

/-- PluginLoader state.  `consentCheck` is a constructor-supplied oracle and
is passed explicitly (as `oracle`) to the operations that consult it, since
its verdict depends on external consent state at call time.  The plugin and
metrics maps model JS objects: insertion-ordered association lists with one
entry per key.  Consent-queue entries are identified by plugin name: the
queued object is the one stored in the plugin map (see `load`). -/
structure Loader where
  eventPrefix : String
  dimensionConfig : List (String × String)
  experiments : Option ExperimentManager
  plugins : List (String × Plugin)
  metrics : List (String × PerformanceRecord)
  consentQueue : List String

/-- JS object write `obj[key] = value`: replace in place or append. -/
def insertAssoc {α : Type} (l : List (String × α)) (key : String) (v : α) :
    List (String × α) :=
  if l.any (fun p => p.1 == key) then
    l.map (fun p => if p.1 == key then (key, v) else p)
  else
    l ++ [(key, v)]

/-- JS object read `obj[key]` (`none` = `undefined`). -/
def lookupAssoc {α : Type} (l : List (String × α)) (key : String) : Option α :=
  (l.find? (fun p => p.1 == key)).map (·.2)

/-- `this.plugins[name]`. -/
def Loader.getPlugin (L : Loader) (name : String) : Option Plugin :=
  lookupAssoc L.plugins name

/-- `this.plugins[p.name] = p` (in-place mutation of the shared descriptor
object is modelled by writing it back to the map). -/
def Loader.setPlugin (L : Loader) (p : Plugin) : Loader :=
  { L with plugins := insertAssoc L.plugins p.name p }

/-- `updateMetrics(plugin)`: `this.metrics[plugin.name] = {...plugin.performance}`. -/
def Loader.updateMetrics (L : Loader) (p : Plugin) : Loader :=
  { L with metrics := insertAssoc L.metrics p.name p.performance }

/-- Pub/sub topic `${this.eventPrefix}.${name}.${event}`. -/
def Loader.topic (L : Loader) (name event : String) : String :=
  s!"{L.eventPrefix}.{name}.{event}"

/-- `checkConsent(requiredStates)` from index.js; `oracle` is `this.consentCheck`.
(For normalized plugins `consentState` is always an array, so the
`!requiredStates` guard of the source is the empty/wildcard test here.) -/
def checkConsent (oracle : List String → Bool) (requiredStates : List String) : Bool :=
  if requiredStates.isEmpty || requiredStates.contains "all" then true
  else oracle requiredStates

/-- The two override lists parsed from the query string by `getUrlOverrides`. -/
structure Overrides where
  enable : List String
  disable : List String
deriving DecidableEq, Repr

/-- `checkUrlOverride(name)` from index.js: returns `(override, enabled)`. -/
def checkUrlOverride (ov : Overrides) (name : String) : Bool × Bool :=
  if ov.disable.contains "all" then
    if ov.enable.contains name then (true, true) else (true, false)
  else if ov.enable.contains name then (true, true)
  else if ov.disable.contains name then (true, false)
  else (false, true)

/-- External inputs consumed by one orchestrator operation: the parsed URL
overrides, the current host, the context snapshots produced by the loader's
and the experiment manager's `getContext` at this moment, and the current
`timer()` value. -/
structure Env where
  overrides : Overrides
  host : String
  ctx : List (String × String)
  expCtx : List (String × String)
  now : Int

/-- `normalizePluginConfig(config)` from index.js. -/
def normalizePluginConfig (eventPrefix : String) (c : RawConfig) (now : Int) : Plugin :=
  { name := c.name
    id := c.id.getD c.name
    url := c.url
    type' := c.type'.getD "js"
    active := c.active != some false
    async := c.async != some false
    location := String.mk (lowerChars (c.location.getD "body"))
    timeout := c.timeout.getD 3000
    domains := c.domains.getD ["all"]
    consentState := (c.consentState.orElse (fun _ => c.consent)).getD ["all"]
    include' := c.include'.getD emptySide
    exclude' := c.exclude'.getD emptySide
    attributes := c.attributes.getD []
    performance := createPerformanceTracker now
    eventTitle := s!"{eventPrefix}.{c.name}"
    status := c.status.getD "init" }

/-- `register(config)` from index.js: always normalizes afresh and stores
the result under its name. -/
def Loader.register (L : Loader) (c : RawConfig) (now : Int) : Loader × Plugin :=
  let p := normalizePluginConfig L.eventPrefix c now
  (L.setPlugin p, p)

/-- `handleInactive(plugin, resolve)` from index.js. -/
def handleInactive (L : Loader) (p : Plugin) (now : Int) :
    Loader × LoadOutcome × List Effect :=
  let p := { p with status := "inactive",
                    performance := { p.performance with
                      status := "inactive",
                      latency := calculateLatency p.performance now } }
  let L := (L.setPlugin p).updateMetrics p
  (L, .resolved "inactive" p.name none none p.performance,
   [.publish (L.topic p.name "inactive") none,
    .publish (L.topic p.name "complete") none,
    .resolveP "inactive" p.name none none p.performance])

/-- `handleIgnore(plugin, reason, resolve)` from index.js; note it also
force-sets `active := false`. -/
def handleIgnore (L : Loader) (p : Plugin) (reason : String) (now : Int) :
    Loader × LoadOutcome × List Effect :=
  let p := { p with active := false, status := "ignore",
                    performance := { p.performance with
                      status := "ignore",
                      latency := calculateLatency p.performance now } }
  let L := (L.setPlugin p).updateMetrics p
  (L, .resolved "ignore" p.name (some reason) none p.performance,
   [.hook p.name "ignoreFn",
    .publish (L.topic p.name "ignore") (some reason),
    .publish (L.topic p.name "complete") none,
    .resolveP "ignore" p.name (some reason) none p.performance])

/-- `executeLoad(plugin, resolve)` from index.js: arms the timeout (its later
firing is `timeoutFire` below), records the preload timestamp, invokes the
preload hook, creates the script element, and either attaches it (moving the
plugin to `requested`) or, with no `url`, falls into `handleIgnore`. -/
def executeLoad (L : Loader) (p : Plugin) (now : Int) :
    Loader × LoadOutcome × List Effect :=
  let p := { p with performance := { p.performance with preload := now } }
  match p.url with
  | some _ =>
    let p := { p with status := "requested",
                      performance := { p.performance with
                        status := "requested", requested := now } }
    (L.setPlugin p, .pending, [.hook p.name "preloadFn", .appendScript p.name])
  | none =>
    let (L, out, effs) := handleIgnore (L.setPlugin p) p "No URL provided" now
    (L, out, .hook p.name "preloadFn" :: effs)

/-- The timeout alarm armed by `executeLoad`, firing at time `now`:
a no-op unless the plugin is still `requested`. -/
def timeoutFire (L : Loader) (name : String) (now : Int) : Loader × List Effect :=
  match L.getPlugin name with
  | none => (L, [])
  | some p =>
    if p.status == "requested" then
      let p := { p with status := "timeout",
                        performance := { p.performance with
                          status := "timeout", timeout := now,
                          latency := calculateLatency p.performance now } }
      let L := (L.setPlugin p).updateMetrics p
      (L, [.hook name "timeoutFn",
           .publish (L.topic name "timeout") none,
           .publish (L.topic name "complete") none,
           .resolveP "timeout" name none none p.performance])
    else (L, [])

/-- The `script.onload` handler installed by `executeLoad`, firing at `now`:
a no-op unless the plugin is still `requested`. -/
def scriptOnload (L : Loader) (name : String) (now : Int) : Loader × List Effect :=
  match L.getPlugin name with
  | none => (L, [])
  | some p =>
    if p.status == "requested" then
      let p := { p with status := "loaded",
                        performance := { p.performance with
                          status := "loaded", received := now,
                          latency := calculateLatency p.performance now } }
      let L := (L.setPlugin p).updateMetrics p
      (L, [.clearAlarm name,
           .hook name "onloadFn",
           .publish (L.topic name "load") none,
           .publish (L.topic name "complete") none,
           .resolveP "loaded" name none none p.performance])
    else (L, [])

/-- The `script.onerror` handler installed by `executeLoad`, firing at `now`
with error `err`: a no-op unless the plugin is still `requested`. -/
def scriptOnerror (L : Loader) (name : String) (err : String) (now : Int) :
    Loader × List Effect :=
  match L.getPlugin name with
  | none => (L, [])
  | some p =>
    if p.status == "requested" then
      let p := { p with status := "error",
                        performance := { p.performance with
                          status := "error", error := now,
                          latency := calculateLatency p.performance now } }
      let L := (L.setPlugin p).updateMetrics p
      (L, [.clearAlarm name,
           .hook name "onerrorFn",
           .publish (L.topic name "error") none,
           .publish (L.topic name "complete") none,
           .resolveP "error" name none (some err) p.performance])
    else (L, [])

/-- The force-enable mutation of the URL-override branch: reset
`include`/`exclude` to empty and `domains`/`consentState` to the wildcard. -/
def enabledPlugin (p : Plugin) : Plugin :=
  { p with include' := emptySide, exclude' := emptySide,
           domains := ["all"], consentState := ["all"] }

/-- The gate sequence of `load(config)` after the URL-override step:
activity gate, consent gate (may suspend into the queue), domain gate,
experiment application, targeting, then `executeLoad`. -/
def gatesFrom (L : Loader) (oracle : List String → Bool) (p : Plugin) (env : Env) :
    Loader × LoadOutcome × List Effect :=
  if p.active != true then
    handleInactive L p env.now
  else if !(checkConsent oracle p.consentState) then
    ({ L with consentQueue := L.consentQueue ++ [p.name] }, .queued,
     [.publish (L.topic p.name "consent.pending") none])
  else if !(matchesDomain (some p.domains) env.host) then
    handleIgnore L p "Domain mismatch" env.now
  else
    let afterExp :=
      match L.experiments with
      | some m =>
        let r := m.apply (some p.name) p env.expCtx
        (({ L with experiments := some r.1 } : Loader).setPlugin r.2, r.2)
      | none => (L, p)
    let L := afterExp.1
    let p := afterExp.2
    let t := normalizeTargetingConfig p.include' p.exclude'
    let result := evaluateTargeting t.1 t.2 env.ctx L.dimensionConfig
    if !result.matched then
      handleIgnore L p result.reason env.now
    else
      executeLoad L p env.now

/-- The body of `load(config)` after descriptor selection and storage:
URL-override check (with its descriptor mutations and events), then the
gate sequence `gatesFrom`. -/
def loadPipeline (L : Loader) (oracle : List String → Bool) (p : Plugin) (env : Env) :
    Loader × LoadOutcome × List Effect :=
  let ov := checkUrlOverride env.overrides p.name
  let step :=
    if ov.1 then
      if ov.2 then
        let p := enabledPlugin p
        (L.setPlugin p, p, [Effect.publish (L.topic p.name "override.enabled") none])
      else
        let p := { p with active := false }
        (L.setPlugin p, p, [Effect.publish (L.topic p.name "override.disabled") none])
    else (L, p, [])
  let r := gatesFrom step.1 oracle step.2.1 env
  (r.1, r.2.1, step.2.2 ++ r.2.2)

/-- `load(config)` from index.js: reuse the stored descriptor for this name
if present (else normalize the submitted config), store it, then run the
gate pipeline. -/
def Loader.load (L : Loader) (oracle : List String → Bool) (c : RawConfig) (env : Env) :
    Loader × LoadOutcome × List Effect :=
  let p := (L.getPlugin c.name).getD (normalizePluginConfig L.eventPrefix c env.now)
  loadPipeline (L.setPlugin p) oracle p env

/-- One iteration of the `processConsentQueue` loop over a snapshot entry,
identified by plugin name (the queued descriptor is the stored one). -/
def processEntry (oracle : List String → Bool) (env : Env)
    (acc : Loader × List Effect) (name : String) : Loader × List Effect :=
  let (L, effs) := acc
  match L.getPlugin name with
  | none => (L, effs)
  | some p =>
    if checkConsent oracle p.consentState then
      let t := normalizeTargetingConfig p.include' p.exclude'
      let result := evaluateTargeting t.1 t.2 env.ctx L.dimensionConfig
      if result.matched && matchesDomain (some p.domains) env.host then
        let r := executeLoad L p env.now
        (r.1, effs ++ r.2.2)
      else
        let reason := if result.reason != "" then result.reason else "Domain mismatch"
        let r := handleIgnore L p reason env.now
        (r.1, effs ++ r.2.2)
    else
      ({ L with consentQueue := L.consentQueue ++ [name] }, effs)

/-- `processConsentQueue()` from index.js: snapshot the queue, clear it,
then process each snapshot entry in order (consent granted → re-evaluate
targeting against the fresh context and the domain, then `executeLoad` or
`handleIgnore`; consent still denied → re-enqueue). -/
def Loader.processConsentQueue (L : Loader) (oracle : List String → Bool) (env : Env) :
    Loader × List Effect :=
  let queue := L.consentQueue
  let L := { L with consentQueue := [] }
  queue.foldl (processEntry oracle env) (L, [])

/-- Claimed behaviour of one consent-queue entry, following the wording of
the spec sentence behind claim C2 ("entries whose consent is now granted are
re-run from step 5 onward (domain → experiment → targeting)"): after the
consent check passes, first the domain gate, then experiment application,
then targeting evaluation against a fresh context, before `executeLoad`.
This definition follows the spec's words, for comparison against
`processEntry`, which follows the source. -/
def processEntryClaimed (oracle : List String → Bool) (env : Env)
    (acc : Loader × List Effect) (name : String) : Loader × List Effect :=
  let (L, effs) := acc
  match L.getPlugin name with
  | none => (L, effs)
  | some p =>
    if checkConsent oracle p.consentState then
      if !(matchesDomain (some p.domains) env.host) then
        let r := handleIgnore L p "Domain mismatch" env.now
        (r.1, effs ++ r.2.2)
      else
        let afterExp :=
          match L.experiments with
          | some m =>
            let r := m.apply (some p.name) p env.expCtx
            (({ L with experiments := some r.1 } : Loader).setPlugin r.2, r.2)
          | none => (L, p)
        let L := afterExp.1
        let p := afterExp.2
        let t := normalizeTargetingConfig p.include' p.exclude'
        let result := evaluateTargeting t.1 t.2 env.ctx L.dimensionConfig
        if !result.matched then
          let r := handleIgnore L p result.reason env.now
          (r.1, effs ++ r.2.2)
        else
          let r := executeLoad L p env.now
          (r.1, effs ++ r.2.2)
    else
      ({ L with consentQueue := L.consentQueue ++ [name] }, effs)

/-- Claimed behaviour of `processConsentQueue` (spec wording for claim C2):
like the source it snapshots the queue, but each granted entry is re-run
from step 5 of the load sequence onward. -/
def processConsentQueueClaimed (L : Loader) (oracle : List String → Bool) (env : Env) :
    Loader × List Effect :=
  let queue := L.consentQueue
  let L := { L with consentQueue := [] }
  queue.foldl (processEntryClaimed oracle env) (L, [])


/-! ## Concrete fixtures used by witnesses and counterexamples -/

/-- A descriptor targeting `section: sport`, requiring `analytics` consent. -/
def pluginA : Plugin :=
  { name := "a", id := "a", url := some "https://x/y.js", type' := "js",
    active := true, async := true, location := "body", timeout := 3000,
    domains := ["all"], consentState := ["analytics"],
    include' := ⟨none, [("section", ["sport"])]⟩, exclude' := emptySide,
    attributes := [], performance := createPerformanceTracker 0,
    eventTitle := "plugin.a", status := "init" }

/-- An experiment on plugin `a` that rewrites its include rules to empty. -/
def expRewrite : Experiment :=
  { id := "e1", active := true, testRange := (0, 99), plugin := some "a",
    include' := emptySide, exclude' := emptySide,
    applyFn := fun p => .ok { p with include' := emptySide } }

/-- Manager holding `expRewrite`, bucket 5. -/
def mgrRewrite : ExperimentManager :=
  { active := true, testgroup := 5, dimensionConfig := [], registry := [expRewrite],
    applied := [], eligible := [] }

/-- Loader with `pluginA` suspended in the consent queue and `mgrRewrite`
installed. -/
def loaderQueued : Loader :=
  { eventPrefix := "plugin", dimensionConfig := [], experiments := some mgrRewrite,
    plugins := [("a", pluginA)], metrics := [], consentQueue := ["a"] }

/-- Consent oracle that grants everything. -/
def oracleAllow : List String → Bool := fun _ => true

/-- Consent oracle that denies everything. -/
def oracleDeny : List String → Bool := fun _ => false

/-- Environment whose context is `section: news` (so `pluginA`'s own include
rule does not match). -/
def envNews : Env :=
  { overrides := ⟨[], []⟩, host := "example.com",
    ctx := [("section", "news")], expCtx := [("section", "news")], now := 7 }

/-- Loader holding `pluginA` already resolved with status `timeout`. -/
def loaderTimedOut : Loader :=
  { eventPrefix := "plugin", dimensionConfig := [], experiments := none,
    plugins := [("a", { pluginA with status := "timeout" })], metrics := [],
    consentQueue := [] }

/-- Loader holding `pluginA` already resolved with status `loaded`. -/
def loaderLoadedA : Loader :=
  { eventPrefix := "plugin", dimensionConfig := [], experiments := none,
    plugins := [("a", { pluginA with status := "loaded" })], metrics := [],
    consentQueue := [] }

/-- A raw config resubmitting name `a`. -/
def rawConfigA : RawConfig :=
  { name := "a", id := none, url := some "https://x/y.js", type' := none,
    active := none, async := none, location := none, timeout := none,
    domains := none, consentState := none, consent := none, include' := none,
    exclude' := none, attributes := none, status := none }

/-- A descriptor with no `url`. -/
def pluginNoUrl : Plugin := { pluginA with name := "b", id := "b", url := none }

/-- An experiment with testRange `[0, 24]` and no other gating. -/
def expQuarter : Experiment :=
  { id := "exp", active := true, testRange := (0, 24), plugin := none,
    include' := emptySide, exclude' := emptySide, applyFn := .ok }

/-- Manager with bucket `tg` holding only `expQuarter`. -/
def bucketMgr (tg : Int) : ExperimentManager :=
  { active := true, testgroup := tg, dimensionConfig := [], registry := [expQuarter],
    applied := [], eligible := [] }

/-- Environment with URL override `pluginDisable=all&pluginEnable=a`, a host
and context that would otherwise block `pluginA`. -/
def envOverride : Env :=
  { overrides := ⟨["a"], ["all"]⟩, host := "blocked.example",
    ctx := [("section", "news")], expCtx := [("section", "news")], now := 3 }

/-- The activity-and-name guard of one `apply` iteration:
`exp.active && isMatch`. -/
def expSelected (pluginName : Option String) (e : Experiment) : Bool :=
  e.active && experimentMatchesName pluginName e

/-- Inclusive `testRange` membership of the manager's bucket. -/
def inTestRange (m : ExperimentManager) (e : Experiment) : Bool :=
  decide (e.testRange.1 ≤ m.testgroup) && decide (m.testgroup ≤ e.testRange.2)

/-- Characterises the registry entries whose `apply` callback is invoked by
a non-throwing run of `ExperimentManager.apply`: active, name-matching,
targeting-matching and inside the test range. -/
def appliedHere (m : ExperimentManager) (pluginName : Option String)
    (ctx : List (String × String)) (e : Experiment) : Bool :=
  expSelected pluginName e && m.targetingMatches ctx e && inTestRange m e

/-- Characterises the registry entries recorded as eligible (control group):
active, name-matching, targeting-matching but outside the test range. -/
def eligibleHere (m : ExperimentManager) (pluginName : Option String)
    (ctx : List (String × String)) (e : Experiment) : Bool :=
  expSelected pluginName e && m.targetingMatches ctx e && !(inTestRange m e)

/-- An experiment whose `apply` callback always throws. -/
def expThrow : Experiment :=
  { id := "t", active := true, testRange := (0, 99), plugin := none,
    include' := emptySide, exclude' := emptySide, applyFn := fun p => .err p }

/-- A well-behaved experiment registered after `expThrow`. -/
def expOk : Experiment :=
  { id := "k", active := true, testRange := (0, 99), plugin := none,
    include' := emptySide, exclude' := emptySide, applyFn := .ok }

/-- Manager holding `expThrow` then `expOk`. -/
def mgrThrow : ExperimentManager :=
  { active := true, testgroup := 5, dimensionConfig := [], registry := [expThrow, expOk],
    applied := [], eligible := [] }

/-- A manager exercising all three `apply` outcomes: `ea` applies, `eb` is
eligible (bucket outside its range), `ec` is skipped (targeting fails). -/
def mgrThree : ExperimentManager :=
  { active := true, testgroup := 30, dimensionConfig := [],
    registry :=
      [{ id := "ea", active := true, testRange := (0, 99), plugin := some "a",
         include' := emptySide, exclude' := emptySide, applyFn := .ok },
       { id := "eb", active := true, testRange := (0, 24), plugin := some "a",
         include' := emptySide, exclude' := emptySide, applyFn := .ok },
       { id := "ec", active := true, testRange := (0, 99), plugin := some "a",
         include' := ⟨none, [("section", ["sport"])]⟩, exclude' := emptySide,
         applyFn := .ok }],
    applied := [], eligible := [] }

/-! ## Helper lemmas -/

theorem find?_insertAssoc_self {α : Type} (k : String) (v : α) :
    ∀ l : List (String × α),
      (insertAssoc l k v).find? (fun p => p.1 == k) = some (k, v) := by
  intro l
  induction l with
  | nil =>
    simp [insertAssoc, List.find?_cons_of_pos]
  | cons a l ih =>
    by_cases ha : (a.1 == k) = true
    · have : (a :: l).any (fun p => p.1 == k) = true := by simp [List.any_cons, ha]
      simp only [insertAssoc, this, if_true, List.map_cons, ha]
      exact List.find?_cons_of_pos _ (by simp)
    · have ha' : (a.1 == k) = false := by
        simp only [Bool.not_eq_true] at ha; exact ha
      by_cases hl : l.any (fun p => p.1 == k) = true
      · have hcons : (a :: l).any (fun p => p.1 == k) = true := by
          simp [List.any_cons, hl]
        have ih' := ih
        simp only [insertAssoc, hl, if_true] at ih'
        simp only [insertAssoc, hcons, if_true, List.map_cons, ha', if_false]
        rw [List.find?_cons_of_neg _ (by simp [ha'])]
        simpa [ha'] using ih'
      · have hl' : l.any (fun p => p.1 == k) = false := by
          simp only [Bool.not_eq_true] at hl; exact hl
        have hcons : (a :: l).any (fun p => p.1 == k) = false := by
          simp [List.any_cons, ha', hl']
        have ih' := ih
        simp only [insertAssoc, hl', Bool.false_eq_true, if_false] at ih'
        simp only [insertAssoc, hcons, Bool.false_eq_true, if_false, List.cons_append]
        rw [List.find?_cons_of_neg _ (by simp [ha'])]
        exact ih'

theorem lookupAssoc_insertAssoc_self {α : Type} (l : List (String × α)) (k : String) (v : α) :
    lookupAssoc (insertAssoc l k v) k = some v := by
  simp [lookupAssoc, find?_insertAssoc_self]

theorem getPlugin_setPlugin_self (L : Loader) (p : Plugin) :
    (L.setPlugin p).getPlugin p.name = some p := by
  simp [Loader.setPlugin, Loader.getPlugin, lookupAssoc_insertAssoc_self]

theorem eraseP_of_find?_none {α : Type} (q : α → Bool) :
    ∀ l : List α, l.find? q = none → l.eraseP q = l := by
  intro l
  induction l with
  | nil => intro _; rfl
  | cons a l ih =>
    intro h
    by_cases ha : q a
    · simp [List.find?, ha] at h
    · have ha' : q a = false := by simpa using ha
      simp only [List.find?, ha'] at h
      simp [List.eraseP_cons, ha', ih h]

theorem evalDimensions_rules_congr (inc exc inc' exc' : TargetingSide)
    (cfg : List (String × String)) (h1 : inc.rules = inc'.rules) (h2 : exc.rules = exc'.rules) :
    ∀ ctx, evalDimensions inc exc cfg ctx = evalDimensions inc' exc' cfg ctx := by
  intro ctx
  induction ctx with
  | nil => rfl
  | cons a rest ih =>
    obtain ⟨dim, v⟩ := a
    simp only [evalDimensions, TargetingSide.rulesFor, h1, h2, ih]

theorem evalDimensions_no_rules (inc exc : TargetingSide) (cfg : List (String × String))
    (h1 : inc.rules = []) (h2 : exc.rules = []) :
    ∀ ctx, evalDimensions inc exc cfg ctx = ⟨true, "All targeting rules passed"⟩ := by
  intro ctx
  induction ctx with
  | nil => rfl
  | cons a rest ih =>
    obtain ⟨dim, v⟩ := a
    simp [evalDimensions, TargetingSide.rulesFor, h1, h2, ih]

/-! ## Claim theorems -/

/-- C3, counterexample: the claim asserts that `isExcluded` returns true for
every value whenever the rule list contains the wildcard "all"; but the
source's `isExcluded` has no wildcard branch, so with rules `["all"]` and
value `"sport"` (exact matching) it returns `false`. -/
theorem claimC3_counterexample :
    (["all"] : List String).contains "all" = true
    ∧ isExcluded "sport" (some ["all"]) "exact" = false := by decide

/-- C3, amended: for every rule list containing the literal "all",
`matchesRule` returns true for every value and match type and `matchesDomain`
returns true for every host, regardless of the wildcard's position; but
`isExcluded` gives the wildcard no special treatment — it treats "all" as an
ordinary rule value, e.g. returning false for value "sport" against rules
`["all"]`. -/
theorem claimC3_wildcard (value host matchType : String) (rules : List String)
    (h : rules.contains "all" = true) :
    matchesRule value (some rules) matchType = true
    ∧ matchesDomain (some rules) host = true
    ∧ isExcluded "sport" (some ["all"]) "exact" = false := by
  have hne : rules.isEmpty = false := by
    cases rules with
    | nil => simp [List.contains] at h
    | cons a l => rfl
  have hall : (rules.head? == some "all" || rules.contains "all") = true := by
    rw [h]; simp
  have hmem : "all" ∈ rules := by simpa using h
  refine ⟨?_, ?_, by decide⟩
  · simp only [matchesRule, hne, Bool.false_eq_true, if_false, hall, if_true]
  · simp [matchesDomain, hne, hmem]

/-- C3, witness for the amended theorem at a concrete rule list with the
wildcard in second position. -/
theorem claimC3_wildcard_witness :
    matchesRule "news" (some ["x", "all"]) "startsWith" = true
    ∧ matchesDomain (some ["x", "all"]) "example.com" = true
    ∧ isExcluded "sport" (some ["all"]) "exact" = false :=
  claimC3_wildcard "news" "example.com" "startsWith" ["x", "all"] (by decide)

/-- C5: `evaluateTargeting` short-circuits on the special predicates in
order — a true-returning `exclude.special` yields
`{matched: false, reason: "Excluded by special function"}`; otherwise a
true-returning `include.special` yields
`{matched: true, reason: "Included by special function"}` regardless of all
per-dimension rules; and a throwing special predicate is caught and behaves
exactly like one returning false (on either side).  (The claim quotes the
reason strings in lower case; the source capitalises their first letter.) -/
theorem claimC5_specialShortCircuit (inc exc : TargetingSide)
    (context dimensionConfig : List (String × String)) :
    (exc.special = some (.ret true) →
      evaluateTargeting inc exc context dimensionConfig
        = ⟨false, "Excluded by special function"⟩)
    ∧ (exc.special ≠ some (.ret true) → inc.special = some (.ret true) →
      evaluateTargeting inc exc context dimensionConfig
        = ⟨true, "Included by special function"⟩)
    ∧ (evaluateTargeting inc { exc with special := some .throws } context dimensionConfig
        = evaluateTargeting inc { exc with special := some (.ret false) } context dimensionConfig)
    ∧ (exc.special ≠ some (.ret true) →
      evaluateTargeting { inc with special := some .throws } exc context dimensionConfig
        = evaluateTargeting { inc with special := some (.ret false) } exc context dimensionConfig)
    := by
  refine ⟨?_, ?_, ?_, ?_⟩
  · intro h
    simp [evaluateTargeting, h]
  · intro hexc hinc
    simp [evaluateTargeting, hexc, hinc]
  · by_cases hi : inc.special = some (.ret true)
    · simp [evaluateTargeting, hi]
    · simp only [evaluateTargeting]
      have h1 : (({ exc with special := some .throws } : TargetingSide).special
          == some (SpecialOutcome.ret true)) = false := by simp
      have h2 : (({ exc with special := some (.ret false) } : TargetingSide).special
          == some (SpecialOutcome.ret true)) = false := by simp
      rw [h1, h2]
      simp only [Bool.false_eq_true, if_false]
      by_cases hi2 : (inc.special == some (SpecialOutcome.ret true)) = true
      · rw [if_pos hi2, if_pos hi2]
      · rw [if_neg hi2, if_neg hi2]
        exact evalDimensions_rules_congr inc { exc with special := some .throws }
          inc { exc with special := some (.ret false) } dimensionConfig rfl rfl context
  · intro hexc
    have hx : (exc.special == some (SpecialOutcome.ret true)) = false := by
      simpa using hexc
    simp only [evaluateTargeting, hx, Bool.false_eq_true, if_false]
    have h1 : (({ inc with special := some .throws } : TargetingSide).special
        == some (SpecialOutcome.ret true)) = false := by simp
    have h2 : (({ inc with special := some (.ret false) } : TargetingSide).special
        == some (SpecialOutcome.ret true)) = false := by simp
    rw [h1, h2]
    simp only [Bool.false_eq_true, if_false]
    exact evalDimensions_rules_congr { inc with special := some .throws } exc
      { inc with special := some (.ret false) } exc dimensionConfig rfl rfl context

/-- C5, witness: a true exclude.special fires first; a true include.special
overrides a failing per-dimension include rule (`zone: ["news"]` against
context `zone: sport`). -/
theorem claimC5_witness :
    evaluateTargeting ⟨none, []⟩ ⟨some (.ret true), []⟩ [("zone", "sport")] []
      = ⟨false, "Excluded by special function"⟩
    ∧ evaluateTargeting ⟨some (.ret true), [("zone", ["news"])]⟩ ⟨some (.ret false), []⟩
        [("zone", "sport")] []
      = ⟨true, "Included by special function"⟩ :=
  ⟨(claimC5_specialShortCircuit ⟨none, []⟩ ⟨some (.ret true), []⟩ [("zone", "sport")] []).1 rfl,
   (claimC5_specialShortCircuit ⟨some (.ret true), [("zone", ["news"])]⟩
      ⟨some (.ret false), []⟩ [("zone", "sport")] []).2.1 (by decide) rfl⟩

/-- C9: a load reaching `executeLoad` with no `url` does not crash: it
resolves with terminal status "ignore" and reason "No URL provided" (every
operation of the embedding is a total function, so no exception escapes);
and `unregister` with an id that is not in the registry leaves the manager
unchanged. -/
theorem claimC9_gracefulDegradation :
    (∀ (L : Loader) (p : Plugin) (now : Int), p.url = none →
      (executeLoad L p now).2.1
          = LoadOutcome.resolved "ignore" p.name (some "No URL provided") none
              ({ p.performance with
                   status := "ignore", preload := now,
                   latency := now - p.performance.init })
      ∧ ((executeLoad L p now).1.getPlugin p.name).map Plugin.status = some "ignore")
    ∧ (∀ (m : ExperimentManager) (id : String),
        m.registry.find? (fun e => e.id == id) = none → m.unregister id = m) := by
  constructor
  · intro L p now h
    constructor
    · simp [executeLoad, h, handleIgnore, calculateLatency]
    · simp [executeLoad, h, handleIgnore, Loader.updateMetrics, Loader.getPlugin,
        Loader.setPlugin, lookupAssoc_insertAssoc_self]
  · intro m id h
    show { m with registry := m.registry.eraseP (fun e => e.id == id) } = m
    rw [eraseP_of_find?_none _ _ h]

/-- C9, witness: concrete no-url load and concrete unknown unregister id. -/
theorem claimC9_witness :
    ((executeLoad loaderTimedOut pluginNoUrl 5).2.1
        = LoadOutcome.resolved "ignore" "b" (some "No URL provided") none
            ({ pluginNoUrl.performance with
                 status := "ignore", preload := 5,
                 latency := 5 - pluginNoUrl.performance.init })
      ∧ ((executeLoad loaderTimedOut pluginNoUrl 5).1.getPlugin "b").map Plugin.status
        = some "ignore")
    ∧ (bucketMgr 3).unregister "zzz" = bucketMgr 3 :=
  ⟨(claimC9_gracefulDegradation.1 loaderTimedOut pluginNoUrl 5 rfl),
   claimC9_gracefulDegradation.2 (bucketMgr 3) "zzz" rfl⟩

/-- C1: once a plugin's status has left "requested" for a terminal status
(loaded, error or timeout), a later timeout-alarm firing, script onload or
script onerror is a complete no-op: the loader state (recorded status,
performance record, metrics) is unchanged, no hook is invoked, no event is
published, and no further resolution effect is produced.  In particular a
success or error report arriving after a timeout has resolved is a no-op. -/
theorem claimC1_singleResolution (L : Loader) (name : String) (p : Plugin)
    (now : Int) (err : String)
    (hp : L.getPlugin name = some p)
    (ht : p.status = "loaded" ∨ p.status = "error" ∨ p.status = "timeout") :
    timeoutFire L name now = (L, [])
    ∧ scriptOnload L name now = (L, [])
    ∧ scriptOnerror L name err now = (L, []) := by
  have hs : (p.status == "requested") = false := by
    rcases ht with h | h | h <;> rw [h] <;> decide
  refine ⟨?_, ?_, ?_⟩ <;>
    simp [timeoutFire, scriptOnload, scriptOnerror, hp, hs]

/-- C1, witness: with `pluginA` already timed out, a late alarm firing, a
late success report and a late error report all leave the loader unchanged
and produce no effects. -/
theorem claimC1_witness :
    timeoutFire loaderTimedOut "a" 11 = (loaderTimedOut, [])
    ∧ scriptOnload loaderTimedOut "a" 11 = (loaderTimedOut, [])
    ∧ scriptOnerror loaderTimedOut "a" "network error" 11 = (loaderTimedOut, []) :=
  claimC1_singleResolution loaderTimedOut "a" { pluginA with status := "timeout" }
    11 "network error" rfl (Or.inr (Or.inr rfl))

/-- C6: `isInExperiment(id)` returns true iff the manager is active, an
experiment with that id is registered and active, and
`min ≤ testgroup ≤ max` holds inclusively for its `testRange = [min, max]`;
the result depends only on the manager's active flag, its fixed testgroup
and the registered experiment, so it is the same on every call while those
are unchanged; and `testRange = [0, 24]` admits exactly the 25 buckets
0 through 24. -/
theorem claimC6_bucketing :
    (∀ (m : ExperimentManager) (id : String),
      m.isInExperiment id = true ↔
        m.active = true ∧ ∃ exp, m.registry.find? (fun e => e.id == id) = some exp
          ∧ exp.active = true ∧ exp.testRange.1 ≤ m.testgroup
          ∧ m.testgroup ≤ exp.testRange.2)
    ∧ (∀ (m m' : ExperimentManager) (id : String),
        m.active = m'.active → m.testgroup = m'.testgroup →
        m.registry.find? (fun e => e.id == id) = m'.registry.find? (fun e => e.id == id) →
        m.isInExperiment id = m'.isInExperiment id)
    ∧ ((Finset.range 100).filter
          (fun tg => (bucketMgr (Int.ofNat tg)).isInExperiment "exp" = true)
        = Finset.range 25) := by
  refine ⟨?_, ?_, by decide⟩
  · intro m id
    unfold ExperimentManager.isInExperiment
    cases hm : m.active with
    | false => simp [hm]
    | true =>
      simp only [hm, Bool.not_true, Bool.false_eq_true, if_false]
      cases hf : m.registry.find? (fun e => e.id == id) with
      | none => simp
      | some exp =>
        cases he : exp.active with
        | false => simp [he]
        | true => simp [he, Bool.and_eq_true, decide_eq_true_eq]
  · intro m m' id h1 h2 h3
    unfold ExperimentManager.isInExperiment
    rw [h1, h2, h3]

/-- C6, witness: bucket 10 is inside `[0, 24]`, and the verdict is unchanged
by unrelated manager-state changes (here: the eligible list). -/
theorem claimC6_witness :
    (bucketMgr 10).isInExperiment "exp" = true
    ∧ (bucketMgr 10).isInExperiment "exp"
        = ({ bucketMgr 10 with eligible := ["x"] }).isInExperiment "exp" :=
  ⟨(claimC6_bucketing.1 (bucketMgr 10) "exp").mpr
      ⟨rfl, expQuarter, rfl, by decide, by decide⟩,
   claimC6_bucketing.2.1 (bucketMgr 10) { bucketMgr 10 with eligible := ["x"] } "exp"
     rfl rfl rfl⟩

/-- Updating metrics leaves the plugin map untouched. -/
theorem getPlugin_updateMetrics (L : Loader) (p : Plugin) (n : String) :
    (L.updateMetrics p).getPlugin n = L.getPlugin n := rfl

/-- Every gate after the override step passes for a descriptor that is
active, wildcard-consented, wildcard-domained and has empty targeting, when
no experiment manager is installed. -/
theorem gatesFrom_all_pass (L : Loader) (oracle : List String → Bool)
    (q : Plugin) (env : Env)
    (hact : q.active = true) (hcons : q.consentState = ["all"])
    (hdom : q.domains = ["all"]) (hinc : q.include' = emptySide)
    (hexc : q.exclude' = emptySide) (hexp : L.experiments = none) :
    gatesFrom L oracle q env = executeLoad L q env.now := by
  have hconsT : checkConsent oracle ["all"] = true := rfl
  have hdomT : matchesDomain (some ["all"]) env.host = true := rfl
  have htarget :
      evaluateTargeting (normalizeTargetingConfig emptySide emptySide).1
        (normalizeTargetingConfig emptySide emptySide).2 env.ctx L.dimensionConfig
        = ⟨true, "All targeting rules passed"⟩ := by
    unfold evaluateTargeting
    simp only [normalizeTargetingConfig, emptySide]
    rw [evalDimensions_no_rules _ _ _ rfl rfl]
    rfl
  unfold gatesFrom
  rw [hact, hcons, hdom, hexp, hconsT, hdomT]
  simp only [bne_self_eq_false, Bool.not_true, Bool.false_eq_true, if_false]
  rw [hinc, hexc, htarget]
  rfl

/-- After `executeLoad` the stored descriptor keeps its gating configuration
(include/exclude/domains/consentState) whatever the url. -/
theorem executeLoad_getPlugin (L : Loader) (q : Plugin) (now : Int) :
    ∃ q', (executeLoad L q now).1.getPlugin q.name = some q'
      ∧ q'.include' = q.include' ∧ q'.exclude' = q.exclude'
      ∧ q'.domains = q.domains ∧ q'.consentState = q.consentState := by
  unfold executeLoad
  cases hq : q.url with
  | some u =>
    simp only [hq]
    exact ⟨_, getPlugin_setPlugin_self _ _, rfl, rfl, rfl, rfl⟩
  | none =>
    simp only [hq, handleIgnore]
    exact ⟨_, getPlugin_setPlugin_self _ _, rfl, rfl, rfl, rfl⟩

/-- `executeLoad` always invokes the preload hook first. -/
theorem executeLoad_head_hook (L : Loader) (q : Plugin) (now : Int) :
    Effect.hook q.name "preloadFn" ∈ (executeLoad L q now).2.2 := by
  unfold executeLoad
  cases hq : q.url with
  | some u =>
    simp only [hq]
    exact List.mem_cons_self _ _
  | none =>
    simp only [hq]
    exact List.mem_cons_self _ _

/-- With an enabling URL override, `loadPipeline` is the override mutation,
the `override.enabled` publication, then the remaining gates on the mutated
descriptor. -/
theorem loadPipeline_override_enabled (L : Loader) (oracle : List String → Bool)
    (p : Plugin) (env : Env)
    (hov : checkUrlOverride env.overrides p.name = (true, true)) :
    loadPipeline L oracle p env =
      ((gatesFrom (L.setPlugin (enabledPlugin p)) oracle (enabledPlugin p) env).1,
       (gatesFrom (L.setPlugin (enabledPlugin p)) oracle (enabledPlugin p) env).2.1,
       Effect.publish (L.topic p.name "override.enabled") none ::
         (gatesFrom (L.setPlugin (enabledPlugin p)) oracle (enabledPlugin p) env).2.2) := by
  unfold loadPipeline
  rw [hov]
  rfl

/-- C4: when the URL override source explicitly enables the plugin's name
(which `checkUrlOverride` reports for `enable` containing the name, also
together with `disable=all`), `load` resets include/exclude to empty and
domains/consentState to the wildcard, emits `override.enabled`, and reaches
`executeLoad` (witnessed by the preload-hook effect) for every context, host
and consent oracle.  The descriptor must carry `active = true` (the override
does not touch the activity flag) and no experiment manager is installed
(experiments run after the override and could edit targeting again). -/
theorem claimC4_overrideEnableBypass (L : Loader) (oracle : List String → Bool)
    (c : RawConfig) (env : Env) (p : Plugin)
    (hp : p = (L.getPlugin c.name).getD (normalizePluginConfig L.eventPrefix c env.now))
    (hname : p.name = c.name)
    (hov : checkUrlOverride env.overrides c.name = (true, true))
    (hact : p.active = true)
    (hexp : L.experiments = none) :
    (((L.load oracle c env).1.getPlugin c.name).map Plugin.include' = some emptySide
      ∧ ((L.load oracle c env).1.getPlugin c.name).map Plugin.exclude' = some emptySide
      ∧ ((L.load oracle c env).1.getPlugin c.name).map Plugin.domains = some ["all"]
      ∧ ((L.load oracle c env).1.getPlugin c.name).map Plugin.consentState = some ["all"])
    ∧ Effect.publish (L.topic c.name "override.enabled") none ∈ (L.load oracle c env).2.2
    ∧ Effect.hook c.name "preloadFn" ∈ (L.load oracle c env).2.2 := by
  have hload : L.load oracle c env = loadPipeline (L.setPlugin p) oracle p env := by
    unfold Loader.load
    rw [← hp]
  have hov' : checkUrlOverride env.overrides p.name = (true, true) := by
    rw [hname]; exact hov
  have hgate := gatesFrom_all_pass ((L.setPlugin p).setPlugin (enabledPlugin p)) oracle
    (enabledPlugin p) env hact rfl rfl rfl rfl hexp
  rw [hload, loadPipeline_override_enabled (L.setPlugin p) oracle p env hov', hgate,
    ← hname]
  obtain ⟨q', hq', h1, h2, h3, h4⟩ :=
    executeLoad_getPlugin ((L.setPlugin p).setPlugin (enabledPlugin p))
      (enabledPlugin p) env.now
  have hq'' : (executeLoad ((L.setPlugin p).setPlugin (enabledPlugin p))
      (enabledPlugin p) env.now).1.getPlugin p.name = some q' := hq'
  refine ⟨⟨?_, ?_, ?_, ?_⟩, ?_, ?_⟩
  · show Option.map Plugin.include'
        ((executeLoad ((L.setPlugin p).setPlugin (enabledPlugin p))
          (enabledPlugin p) env.now).1.getPlugin p.name) = some emptySide
    rw [hq'']
    show some q'.include' = some emptySide
    rw [show q'.include' = (enabledPlugin p).include' from h1]
    rfl
  · show Option.map Plugin.exclude'
        ((executeLoad ((L.setPlugin p).setPlugin (enabledPlugin p))
          (enabledPlugin p) env.now).1.getPlugin p.name) = some emptySide
    rw [hq'']
    show some q'.exclude' = some emptySide
    rw [show q'.exclude' = (enabledPlugin p).exclude' from h2]
    rfl
  · show Option.map Plugin.domains
        ((executeLoad ((L.setPlugin p).setPlugin (enabledPlugin p))
          (enabledPlugin p) env.now).1.getPlugin p.name) = some ["all"]
    rw [hq'']
    show some q'.domains = some ["all"]
    rw [show q'.domains = (enabledPlugin p).domains from h3]
    rfl
  · show Option.map Plugin.consentState
        ((executeLoad ((L.setPlugin p).setPlugin (enabledPlugin p))
          (enabledPlugin p) env.now).1.getPlugin p.name) = some ["all"]
    rw [hq'']
    show some q'.consentState = some ["all"]
    rw [show q'.consentState = (enabledPlugin p).consentState from h4]
    rfl
  · exact List.mem_cons_self _ _
  · exact List.mem_cons_of_mem _
      (executeLoad_head_hook ((L.setPlugin p).setPlugin (enabledPlugin p))
        (enabledPlugin p) env.now)

/-- C4, witness: `pluginDisable=all&pluginEnable=a` forces plugin `a` past a
non-matching context, an alien host and a denying consent oracle. -/
theorem claimC4_witness :
    (((loaderLoadedA.load oracleDeny rawConfigA envOverride).1.getPlugin "a").map
        Plugin.include' = some emptySide
      ∧ ((loaderLoadedA.load oracleDeny rawConfigA envOverride).1.getPlugin "a").map
          Plugin.exclude' = some emptySide
      ∧ ((loaderLoadedA.load oracleDeny rawConfigA envOverride).1.getPlugin "a").map
          Plugin.domains = some ["all"]
      ∧ ((loaderLoadedA.load oracleDeny rawConfigA envOverride).1.getPlugin "a").map
          Plugin.consentState = some ["all"])
    ∧ Effect.publish (loaderLoadedA.topic "a" "override.enabled") none
        ∈ (loaderLoadedA.load oracleDeny rawConfigA envOverride).2.2
    ∧ Effect.hook "a" "preloadFn"
        ∈ (loaderLoadedA.load oracleDeny rawConfigA envOverride).2.2 :=
  claimC4_overrideEnableBypass loaderLoadedA oracleDeny rawConfigA envOverride
    { pluginA with status := "loaded" } rfl rfl rfl rfl rfl

/-- JS object writes keep keys unique: `insertAssoc` preserves key nodup. -/
theorem nodup_keys_insertAssoc {α : Type} (l : List (String × α)) (k : String) (v : α)
    (h : (l.map Prod.fst).Nodup) : ((insertAssoc l k v).map Prod.fst).Nodup := by
  unfold insertAssoc
  split
  · rw [List.map_map]
    have heq : ∀ p ∈ l, (Prod.fst ∘ fun p => if p.1 == k then (k, v) else p) p = p.1 := by
      intro p hp
      by_cases hb : (p.1 == k) = true
      · simp [Function.comp, hb, eq_of_beq hb]
      · simp [Function.comp, hb]
    rw [List.map_congr_left heq]
    exact h
  · rename_i hany
    have hk : k ∉ l.map Prod.fst := by
      intro hmem
      obtain ⟨p, hp, hpk⟩ := List.mem_map.mp hmem
      exact hany (List.any_eq_true.mpr ⟨p, hp, by simp [hpk]⟩)
    rw [List.map_append]
    rw [List.nodup_append]
    refine ⟨h, List.nodup_singleton _, ?_⟩
    intro a ha hak
    rw [List.map_cons, List.map_nil, List.mem_singleton] at hak
    have hak' : a = k := hak
    exact hk (hak' ▸ ha)

/-- `executeLoad` preserves plugin-map key uniqueness. -/
theorem nodup_keys_executeLoad (L : Loader) (q : Plugin) (now : Int)
    (h : (L.plugins.map Prod.fst).Nodup) :
    (((executeLoad L q now).1).plugins.map Prod.fst).Nodup := by
  unfold executeLoad
  cases hq : q.url with
  | some u =>
    simp only [hq]
    exact nodup_keys_insertAssoc _ _ _ h
  | none =>
    simp only [hq, handleIgnore]
    exact nodup_keys_insertAssoc _ _ _ (nodup_keys_insertAssoc _ _ _ h)

/-- The gate sequence preserves plugin-map key uniqueness. -/
theorem nodup_keys_gatesFrom (L : Loader) (oracle : List String → Bool)
    (q : Plugin) (env : Env) (h : (L.plugins.map Prod.fst).Nodup) :
    (((gatesFrom L oracle q env).1).plugins.map Prod.fst).Nodup := by
  unfold gatesFrom
  split
  · exact nodup_keys_insertAssoc _ _ _ h
  · split
    · exact h
    · split
      · exact nodup_keys_insertAssoc _ _ _ h
      · cases hexp : L.experiments with
        | some m =>
          simp only [hexp]
          split
          · exact nodup_keys_insertAssoc _ _ _ (nodup_keys_insertAssoc _ _ _ h)
          · exact nodup_keys_executeLoad _ _ _ (nodup_keys_insertAssoc _ _ _ h)
        | none =>
          simp only [hexp]
          split
          · exact nodup_keys_insertAssoc _ _ _ h
          · exact nodup_keys_executeLoad _ _ _ h

/-- The full load pipeline preserves plugin-map key uniqueness. -/
theorem nodup_keys_loadPipeline (L : Loader) (oracle : List String → Bool)
    (p : Plugin) (env : Env) (h : (L.plugins.map Prod.fst).Nodup) :
    (((loadPipeline L oracle p env).1).plugins.map Prod.fst).Nodup := by
  unfold loadPipeline
  cases hov : checkUrlOverride env.overrides p.name with
  | mk a b =>
    cases a <;> cases b <;> simp only [hov] <;>
      first
        | exact nodup_keys_gatesFrom _ _ _ _ h
        | exact nodup_keys_gatesFrom _ _ _ _ (nodup_keys_insertAssoc _ _ _ h)

/-- C8, counterexample: the claim says re-submitting a present name "via
load or register" reuses the stored descriptor, preserving its accumulated
status; but `register` always normalizes afresh and overwrites — here a
stored descriptor with status "loaded" is replaced by a fresh one with
status "init". -/
theorem claimC8_counterexample :
    (loaderLoadedA.getPlugin "a").map Plugin.status = some "loaded"
    ∧ ((loaderLoadedA.register rawConfigA 9).1.getPlugin "a").map Plugin.status = some "init"
    ∧ (loaderLoadedA.register rawConfigA 9).1.getPlugin "a" ≠ loaderLoadedA.getPlugin "a" :=
  ⟨rfl, rfl, by decide⟩

/-- C8, amended: at most one stored descriptor per name at all times (the
plugin map's keys stay unique under both `load` and `register`); `load` on a
name already present reuses the stored descriptor object — the pipeline runs
on it, with no fresh normalization; but `register` always creates and stores
a freshly normalized descriptor for the name, replacing the stored one (so
accumulated state survives re-`load`, not re-`register`). -/
theorem claimC8_descriptorReuse :
    (∀ (L : Loader) (oracle : List String → Bool) (c : RawConfig) (env : Env) (p : Plugin),
      L.getPlugin c.name = some p →
      L.load oracle c env = loadPipeline (L.setPlugin p) oracle p env)
    ∧ (∀ (L : Loader) (c : RawConfig) (now : Int),
        (L.register c now).1.getPlugin c.name
          = some (normalizePluginConfig L.eventPrefix c now))
    ∧ (∀ (L : Loader) (c : RawConfig) (now : Int),
        (L.plugins.map Prod.fst).Nodup →
        (((L.register c now).1.plugins.map Prod.fst)).Nodup)
    ∧ (∀ (L : Loader) (oracle : List String → Bool) (c : RawConfig) (env : Env),
        (L.plugins.map Prod.fst).Nodup →
        (((L.load oracle c env).1.plugins.map Prod.fst)).Nodup) := by
  refine ⟨?_, ?_, ?_, ?_⟩
  · intro L oracle c env p h
    unfold Loader.load
    rw [h]
    rfl
  · intro L c now
    exact getPlugin_setPlugin_self L (normalizePluginConfig L.eventPrefix c now)
  · intro L c now h
    exact nodup_keys_insertAssoc _ _ _ h
  · intro L oracle c env h
    unfold Loader.load
    cases hg : L.getPlugin c.name with
    | some p =>
      simp only [hg]
      exact nodup_keys_loadPipeline _ _ _ _ (nodup_keys_insertAssoc _ _ _ h)
    | none =>
      simp only [hg]
      exact nodup_keys_loadPipeline _ _ _ _ (nodup_keys_insertAssoc _ _ _ h)

/-- C8, witness at concrete inputs for each amended conjunct. -/
theorem claimC8_witness :
    loaderLoadedA.load oracleAllow rawConfigA envNews
      = loadPipeline (loaderLoadedA.setPlugin { pluginA with status := "loaded" })
          oracleAllow { pluginA with status := "loaded" } envNews
    ∧ (loaderLoadedA.register rawConfigA 9).1.getPlugin "a"
        = some (normalizePluginConfig "plugin" rawConfigA 9)
    ∧ (((loaderLoadedA.register rawConfigA 9).1.plugins.map Prod.fst)).Nodup
    ∧ (((loaderLoadedA.load oracleAllow rawConfigA envNews).1.plugins.map Prod.fst)).Nodup :=
  ⟨claimC8_descriptorReuse.1 loaderLoadedA oracleAllow rawConfigA envNews
      { pluginA with status := "loaded" } rfl,
   claimC8_descriptorReuse.2.1 loaderLoadedA rawConfigA 9,
   claimC8_descriptorReuse.2.2.1 loaderLoadedA rawConfigA 9 (by decide),
   claimC8_descriptorReuse.2.2.2 loaderLoadedA oracleAllow rawConfigA envNews (by decide)⟩

/-- `executeLoad` never touches the experiment manager. -/
theorem experiments_executeLoad (L : Loader) (q : Plugin) (now : Int) :
    ((executeLoad L q now).1).experiments = L.experiments := by
  unfold executeLoad
  cases hq : q.url with
  | some u =>
    simp only [hq]
    rfl
  | none =>
    simp only [hq, handleIgnore]
    rfl

/-- `handleIgnore` never touches the experiment manager. -/
theorem experiments_handleIgnore (L : Loader) (q : Plugin) (reason : String) (now : Int) :
    ((handleIgnore L q reason now).1).experiments = L.experiments := rfl

/-- C2, counterexample: the claim says a consent-granted queue entry is
re-run from step 5 of the load sequence, i.e. domain, then experiment
application, then targeting.  The source's `processConsentQueue` never
re-applies experiments (and evaluates targeting before the domain check):
with a registered experiment that would rewrite plugin `a`'s include rules
to pass, the source run ignores the plugin and leaves the manager's applied
list empty, while the claimed behaviour would apply experiment `e1` and
reach `executeLoad` (status "requested"). -/
theorem claimC2_counterexample :
    ((loaderQueued.processConsentQueue oracleAllow envNews).1.getPlugin "a").map Plugin.status
      = some "ignore"
    ∧ ((processConsentQueueClaimed loaderQueued oracleAllow envNews).1.getPlugin "a").map
        Plugin.status = some "requested"
    ∧ ((loaderQueued.processConsentQueue oracleAllow envNews).1.experiments.map
        (fun m => m.applied)) = some []
    ∧ ((processConsentQueueClaimed loaderQueued oracleAllow envNews).1.experiments.map
        (fun m => m.applied)) = some ["e1"] :=
  ⟨by decide, by decide, rfl, rfl⟩

/-- C2, amended: for a queue entry whose consent check now passes,
`processConsentQueue` re-evaluates targeting against a fresh context
snapshot together with the domain check and only then reaches `executeLoad`
(it is not loaded unconditionally) — but experiment application is NOT
re-run (the experiment manager is untouched in every granted branch), and a
failing re-evaluation ignores the plugin; an entry whose consent check still
fails is re-enqueued unchanged (the loader is exactly as before, with no
effects). -/
theorem claimC2_consentQueue (L : Loader) (oracle : List String → Bool) (env : Env)
    (name : String) (p : Plugin)
    (hq : L.consentQueue = [name]) (hp : L.getPlugin name = some p)
    (hname : p.name = name) :
    (checkConsent oracle p.consentState = false →
      L.processConsentQueue oracle env = (L, []))
    ∧ (checkConsent oracle p.consentState = true →
      (L.processConsentQueue oracle env).1.experiments = L.experiments)
    ∧ (checkConsent oracle p.consentState = true →
      ((evaluateTargeting (normalizeTargetingConfig p.include' p.exclude').1
          (normalizeTargetingConfig p.include' p.exclude').2 env.ctx
          L.dimensionConfig).matched
        && matchesDomain (some p.domains) env.host) = true →
      L.processConsentQueue oracle env
        = ((executeLoad { L with consentQueue := [] } p env.now).1,
           (executeLoad { L with consentQueue := [] } p env.now).2.2))
    ∧ (checkConsent oracle p.consentState = true →
      ((evaluateTargeting (normalizeTargetingConfig p.include' p.exclude').1
          (normalizeTargetingConfig p.include' p.exclude').2 env.ctx
          L.dimensionConfig).matched
        && matchesDomain (some p.domains) env.host) = false →
      ((L.processConsentQueue oracle env).1.getPlugin name).map Plugin.status
        = some "ignore") := by
  have hp0 : ({ L with consentQueue := [] } : Loader).getPlugin name = some p := hp
  have hfold : L.processConsentQueue oracle env
      = processEntry oracle env ({ L with consentQueue := [] }, []) name := by
    unfold Loader.processConsentQueue
    rw [hq]
    rfl
  refine ⟨?_, ?_, ?_, ?_⟩
  · intro hc
    rw [hfold]
    simp only [processEntry]
    rw [hp0]
    simp only [hc, Bool.false_eq_true, if_false]
    show (({ L with consentQueue := [] ++ [name] } : Loader), ([] : List Effect)) = (L, [])
    rw [List.nil_append, ← hq]
  · intro hc
    rw [hfold]
    simp only [processEntry]
    rw [hp0]
    simp only [hc, if_true]
    cases hm : ((evaluateTargeting (normalizeTargetingConfig p.include' p.exclude').1
        (normalizeTargetingConfig p.include' p.exclude').2 env.ctx
        L.dimensionConfig).matched && matchesDomain (some p.domains) env.host) with
    | true =>
      simp only [hm, if_true]
      exact experiments_executeLoad _ _ _
    | false =>
      simp only [hm, Bool.false_eq_true, if_false]
      exact experiments_handleIgnore _ _ _ _
  · intro hc hm
    rw [hfold]
    simp only [processEntry]
    rw [hp0]
    simp only [hc, if_true, hm, List.nil_append]
  · intro hc hm
    rw [hfold]
    simp only [processEntry]
    rw [hp0]
    simp only [hc, if_true, hm, Bool.false_eq_true, if_false]
    have hstore : ∀ (X : Loader) (q : Plugin), q.name = p.name →
        ((X.setPlugin q).getPlugin p.name).map Plugin.status = some q.status := by
      intro X q h
      rw [← h, getPlugin_setPlugin_self]
      rfl
    rw [← hname]
    exact hstore _ _ rfl

/-- C2, witness: a denied entry leaves `loaderQueued` unchanged; a granted
entry whose targeting fails is ignored. -/
theorem claimC2_witness :
    loaderQueued.processConsentQueue oracleDeny envNews = (loaderQueued, [])
    ∧ ((loaderQueued.processConsentQueue oracleAllow envNews).1.getPlugin "a").map
        Plugin.status = some "ignore" :=
  ⟨(claimC2_consentQueue loaderQueued oracleDeny envNews "a" pluginA rfl rfl rfl).1 rfl,
   (claimC2_consentQueue loaderQueued oracleAllow envNews "a" pluginA rfl rfl rfl).2.2.2
     rfl (by decide)⟩

/-- With unique ids, the registry lookup by an element's id finds that
element. -/
theorem find?_id_of_nodup (l : List Experiment) (e : Experiment)
    (hnd : (l.map (fun x => x.id)).Nodup) (he : e ∈ l) :
    l.find? (fun x => x.id == e.id) = some e := by
  induction l with
  | nil => cases he
  | cons a l ih =>
    rcases List.mem_cons.mp he with rfl | hmem
    · exact List.find?_cons_of_pos _ (by simp)
    · have hnotin : a.id ∉ l.map (fun x => x.id) := (List.nodup_cons.mp hnd).1
      have hne : (a.id == e.id) = false := by
        by_cases hb : (a.id == e.id) = true
        · exact absurd (eq_of_beq hb ▸ List.mem_map_of_mem (fun x => x.id) hmem) hnotin
        · simpa using hb
      rw [List.find?_cons_of_neg _ (by simp [hne])]
      exact ih (List.nodup_cons.mp hnd).2 hmem

/-- For a registry member of an active manager with unique ids,
`isInExperiment` is the experiment's own activity and range test. -/
theorem isInExperiment_of_mem (m : ExperimentManager) (e : Experiment)
    (hact : m.active = true) (hnd : (m.registry.map (fun x => x.id)).Nodup)
    (he : e ∈ m.registry) :
    m.isInExperiment e.id = (e.active && inTestRange m e) := by
  unfold ExperimentManager.isInExperiment
  rw [hact]
  simp only [Bool.not_true, Bool.false_eq_true, if_false]
  rw [find?_id_of_nodup m.registry e hnd he]
  cases he' : e.active with
  | false => simp [he']
  | true => simp [he', inTestRange]

/-- Characterisation of the `apply` loop over any non-throwing suffix of
experiments: the final descriptor is the fold of the applied callbacks, and
the applied/eligible accumulators receive exactly the `appliedHere` /
`eligibleHere` ids, in registry order. -/
theorem applyFold (m : ExperimentManager) (pn : Option String)
    (ctx : List (String × String))
    (hact : m.active = true) (hnd : (m.registry.map (fun x => x.id)).Nodup) :
    ∀ (l : List Experiment), (∀ e ∈ l, e ∈ m.registry) →
      (∀ e ∈ l, ∀ q, (e.applyFn q).isOk = true) →
      ∀ (d : Plugin) (ap el : List String),
      l.foldl (applyOne m pn ctx) (d, ap, el)
        = ((l.filter (appliedHere m pn ctx)).foldl (fun q e => (e.applyFn q).plugin) d,
           ap ++ l.filterMap (fun e => if appliedHere m pn ctx e then some e.id else none),
           el ++ l.filterMap (fun e => if eligibleHere m pn ctx e then some e.id else none)) := by
  intro l
  induction l with
  | nil =>
    intro _ _ d ap el
    simp
  | cons e l ih =>
    intro hsub hok d ap el
    have hsub' : ∀ x ∈ l, x ∈ m.registry := fun x hx => hsub x (List.mem_cons_of_mem e hx)
    have hok' : ∀ x ∈ l, ∀ q, (x.applyFn q).isOk = true :=
      fun x hx => hok x (List.mem_cons_of_mem e hx)
    rw [List.foldl_cons]
    by_cases h1 : (e.active && experimentMatchesName pn e) = true
    · by_cases h2 : m.targetingMatches ctx e = true
      · have heact : e.active = true := by
          revert h1
          cases e.active <;> simp
        have hin : m.isInExperiment e.id = inTestRange m e := by
          rw [isInExperiment_of_mem m e hact hnd (hsub e (List.mem_cons_self e l)), heact,
            Bool.true_and]
        by_cases h3 : inTestRange m e = true
        · have hisin : m.isInExperiment e.id = true := by rw [hin, h3]
          have hsel : appliedHere m pn ctx e = true := by
            simp [appliedHere, expSelected, h1, h2, h3]
          have hnel : eligibleHere m pn ctx e = false := by
            simp [eligibleHere, h3]
          cases happ : e.applyFn d with
          | ok p' =>
            have hstep : applyOne m pn ctx (d, ap, el) e = (p', ap ++ [e.id], el) := by
              simp [applyOne, h1, h2, hisin, happ]
            rw [hstep, ih hsub' hok' p' (ap ++ [e.id]) el]
            simp [List.filter_cons, List.filterMap_cons, hsel, hnel, happ,
              ApplyResult.plugin, List.append_assoc]
          | err p' =>
            have : (e.applyFn d).isOk = true := hok e (List.mem_cons_self e l) d
            rw [happ] at this
            simp [ApplyResult.isOk] at this
        · have h3' : inTestRange m e = false := by simpa using h3
          have hisin : m.isInExperiment e.id = false := by rw [hin, h3']
          have hsel : appliedHere m pn ctx e = false := by
            simp [appliedHere, h3']
          have hnel : eligibleHere m pn ctx e = true := by
            simp [eligibleHere, expSelected, h1, h2, h3']
          have hstep : applyOne m pn ctx (d, ap, el) e = (d, ap, el ++ [e.id]) := by
            simp [applyOne, h1, h2, hisin]
          rw [hstep, ih hsub' hok' d ap (el ++ [e.id])]
          simp [List.filter_cons, List.filterMap_cons, hsel, hnel, List.append_assoc]
      · have h2' : m.targetingMatches ctx e = false := by simpa using h2
        have hsel : appliedHere m pn ctx e = false := by
          simp [appliedHere, h2']
        have hnel : eligibleHere m pn ctx e = false := by
          simp [eligibleHere, h2']
        have hstep : applyOne m pn ctx (d, ap, el) e = (d, ap, el) := by
          simp [applyOne, h1, h2']
        rw [hstep, ih hsub' hok' d ap el]
        simp [List.filter_cons, List.filterMap_cons, hsel, hnel]
    · have h1' : (e.active && experimentMatchesName pn e) = false := by simpa using h1
      have hsel : appliedHere m pn ctx e = false := by
        simp [appliedHere, expSelected, h1']
      have hnel : eligibleHere m pn ctx e = false := by
        simp [eligibleHere, expSelected, h1']
      have hstep : applyOne m pn ctx (d, ap, el) e = (d, ap, el) := by
        simp [applyOne, h1']
      rw [hstep, ih hsub' hok' d ap el]
      simp [List.filter_cons, List.filterMap_cons, hsel, hnel]

/-- C7: for an active manager with unique ids and non-throwing callbacks,
one `apply(pluginName, descriptor)` call partitions the registry: an entry
that is inactive, name-mismatched (exact match for per-plugin calls;
plugin-less experiments only on plugin-less calls — `experimentMatchesName`)
or targeting-mismatched contributes to neither list; a matching entry inside
the test range has its callback run on the (threaded) descriptor and its id
appended to `applied`; a matching entry outside the range has its id
appended to `eligible`.  The third conjunct shows the returned descriptor is
exactly the fold of the applied experiments' callbacks. -/
theorem claimC7_applyPartition (m : ExperimentManager) (pn : Option String)
    (d : Plugin) (ctx : List (String × String))
    (hact : m.active = true)
    (hnd : (m.registry.map (fun x => x.id)).Nodup)
    (hok : ∀ e ∈ m.registry, ∀ q, (e.applyFn q).isOk = true) :
    ((m.apply pn d ctx).1.applied
       = m.applied ++ m.registry.filterMap
           (fun e => if appliedHere m pn ctx e then some e.id else none))
    ∧ ((m.apply pn d ctx).1.eligible
       = m.eligible ++ m.registry.filterMap
           (fun e => if eligibleHere m pn ctx e then some e.id else none))
    ∧ ((m.apply pn d ctx).2
       = (m.registry.filter (appliedHere m pn ctx)).foldl
           (fun q e => (e.applyFn q).plugin) d) := by
  unfold ExperimentManager.apply
  rw [hact]
  simp only [Bool.not_true, Bool.false_eq_true, if_false]
  rw [applyFold m pn ctx hact hnd m.registry (fun e he => he) hok d m.applied m.eligible]
  exact ⟨rfl, rfl, rfl⟩

/-- C7, witness: in `mgrThree`, `ea` is applied, `eb` is eligible and `ec`
(targeting mismatch) is in neither list. -/
theorem claimC7_witness :
    ((mgrThree.apply (some "a") pluginA [("section", "news")]).1.applied = ["ea"])
    ∧ ((mgrThree.apply (some "a") pluginA [("section", "news")]).1.eligible = ["eb"]) := by
  have h := claimC7_applyPartition mgrThree (some "a") pluginA [("section", "news")]
    rfl (by decide)
    (by
      intro e he q
      fin_cases he <;> rfl)
  refine ⟨?_, ?_⟩
  · rw [h.1]
    rfl
  · rw [h.2.1]
    rfl

/-- Ids produced by a guarded filterMap come from the list's ids. -/
theorem mem_map_id_of_mem_filterMap_guard (l : List Experiment)
    (f : Experiment → Bool) (y : String)
    (h : y ∈ l.filterMap (fun x => if f x then some x.id else none)) :
    y ∈ l.map (fun x => x.id) := by
  obtain ⟨x, hx, hfx⟩ := List.mem_filterMap.mp h
  by_cases c : f x = true
  · rw [if_pos c] at hfx
    exact (Option.some.injEq _ _ ▸ hfx) ▸ List.mem_map_of_mem (fun x => x.id) hx
  · rw [if_neg c] at hfx
    cases hfx

/-- C10: when a matched in-range experiment's `apply` callback throws, the
exception is caught: its id is appended to neither `applied` nor `eligible`,
and iteration continues — every experiment before and after it still
contributes exactly its own `appliedHere`/`eligibleHere` ids. -/
theorem claimC10_applyThrowIsolated (m : ExperimentManager) (pn : Option String)
    (d : Plugin) (ctx : List (String × String)) (pre post : List Experiment)
    (e : Experiment)
    (hact : m.active = true)
    (hreg : m.registry = pre ++ e :: post)
    (hnd : (m.registry.map (fun x => x.id)).Nodup)
    (hokPre : ∀ x ∈ pre, ∀ q, (x.applyFn q).isOk = true)
    (hokPost : ∀ x ∈ post, ∀ q, (x.applyFn q).isOk = true)
    (hthrow : ∀ q, (e.applyFn q).isOk = false)
    (hsel : (e.active && experimentMatchesName pn e) = true)
    (htm : m.targetingMatches ctx e = true)
    (hrange : inTestRange m e = true)
    (hap : e.id ∉ m.applied) (hel : e.id ∉ m.eligible) :
    e.id ∉ (m.apply pn d ctx).1.applied
    ∧ e.id ∉ (m.apply pn d ctx).1.eligible
    ∧ ((m.apply pn d ctx).1.applied
        = m.applied
          ++ pre.filterMap (fun x => if appliedHere m pn ctx x then some x.id else none)
          ++ post.filterMap (fun x => if appliedHere m pn ctx x then some x.id else none))
    ∧ ((m.apply pn d ctx).1.eligible
        = m.eligible
          ++ pre.filterMap (fun x => if eligibleHere m pn ctx x then some x.id else none)
          ++ post.filterMap (fun x => if eligibleHere m pn ctx x then some x.id else none)) := by
  have hsubPre : ∀ x ∈ pre, x ∈ m.registry := by
    intro x hx
    rw [hreg]
    exact List.mem_append_left _ hx
  have hsubPost : ∀ x ∈ post, x ∈ m.registry := by
    intro x hx
    rw [hreg]
    exact List.mem_append_right _ (List.mem_cons_of_mem e hx)
  have hmemE : e ∈ m.registry := by
    rw [hreg]
    exact List.mem_append_right _ (List.mem_cons_self e post)
  have heact : e.active = true := by
    revert hsel
    cases e.active <;> simp
  have hisin : m.isInExperiment e.id = true := by
    rw [isInExperiment_of_mem m e hact hnd hmemE, heact, Bool.true_and, hrange]
  -- id disjointness from nodup
  have hnd' : ((pre ++ e :: post).map (fun x => x.id)).Nodup := hreg ▸ hnd
  rw [List.map_append, List.map_cons] at hnd'
  obtain ⟨hndPre, hndCons, hdisj⟩ := List.nodup_append.mp hnd'
  have hePost : e.id ∉ post.map (fun x => x.id) := (List.nodup_cons.mp hndCons).1
  have hePre : e.id ∉ pre.map (fun x => x.id) := by
    intro hmem
    exact hdisj hmem (List.mem_cons_self _ _)
  -- compute the fold
  have hcompute :
      (m.apply pn d ctx).1.applied
        = m.applied
          ++ pre.filterMap (fun x => if appliedHere m pn ctx x then some x.id else none)
          ++ post.filterMap (fun x => if appliedHere m pn ctx x then some x.id else none)
      ∧ (m.apply pn d ctx).1.eligible
        = m.eligible
          ++ pre.filterMap (fun x => if eligibleHere m pn ctx x then some x.id else none)
          ++ post.filterMap (fun x => if eligibleHere m pn ctx x then some x.id else none) := by
    unfold ExperimentManager.apply
    rw [hact]
    simp only [Bool.not_true, Bool.false_eq_true, if_false]
    rw [hreg, List.foldl_append, List.foldl_cons]
    rw [applyFold m pn ctx hact hnd pre hsubPre hokPre d m.applied m.eligible]
    cases happ : e.applyFn ((pre.filter (appliedHere m pn ctx)).foldl
        (fun q e => (e.applyFn q).plugin) d) with
    | ok p' =>
      have := hthrow ((pre.filter (appliedHere m pn ctx)).foldl
        (fun q e => (e.applyFn q).plugin) d)
      rw [happ] at this
      simp [ApplyResult.isOk] at this
    | err p' =>
      have hstep : applyOne m pn ctx
          ((pre.filter (appliedHere m pn ctx)).foldl (fun q e => (e.applyFn q).plugin) d,
           m.applied ++ pre.filterMap (fun x => if appliedHere m pn ctx x then some x.id else none),
           m.eligible ++ pre.filterMap (fun x => if eligibleHere m pn ctx x then some x.id else none))
          e
          = (p',
             m.applied ++ pre.filterMap (fun x => if appliedHere m pn ctx x then some x.id else none),
             m.eligible ++ pre.filterMap (fun x => if eligibleHere m pn ctx x then some x.id else none)) := by
        simp [applyOne, hsel, htm, hisin, happ]
      rw [hstep, applyFold m pn ctx hact hnd post hsubPost hokPost p' _ _]
      simp [List.append_assoc]
  refine ⟨?_, ?_, hcompute.1, hcompute.2⟩
  · rw [hcompute.1]
    intro hmem
    rcases List.mem_append.mp hmem with hmem2 | hpost
    · rcases List.mem_append.mp hmem2 with hinit | hpre
      · exact hap hinit
      · exact hePre (mem_map_id_of_mem_filterMap_guard _ _ _ hpre)
    · exact hePost (mem_map_id_of_mem_filterMap_guard _ _ _ hpost)
  · rw [hcompute.2]
    intro hmem
    rcases List.mem_append.mp hmem with hmem2 | hpost
    · rcases List.mem_append.mp hmem2 with hinit | hpre
      · exact hel hinit
      · exact hePre (mem_map_id_of_mem_filterMap_guard _ _ _ hpre)
    · exact hePost (mem_map_id_of_mem_filterMap_guard _ _ _ hpost)

/-- C10, witness: `expThrow` throws and lands in neither list, while the
later `expOk` is still applied. -/
theorem claimC10_witness :
    "t" ∉ (mgrThrow.apply none pluginA []).1.applied
    ∧ "t" ∉ (mgrThrow.apply none pluginA []).1.eligible
    ∧ (mgrThrow.apply none pluginA []).1.applied = ["k"] := by
  have h := claimC10_applyThrowIsolated mgrThrow none pluginA [] [] [expOk] expThrow
    rfl rfl (by decide)
    (by intro x hx q; exact absurd hx (List.not_mem_nil x))
    (by
      intro x hx q
      rcases List.mem_singleton.mp hx with rfl
      rfl)
    (fun q => rfl) rfl rfl rfl (List.not_mem_nil "t") (List.not_mem_nil "t")
  refine ⟨h.1, h.2.1, ?_⟩
  rw [h.2.2.1]
  rfl
